import Mathlib

/-!
Shallow embedding of the EBM numerical engine of
`src/snowball-earth-app/src/engine/ebm.ts`.

Machine floats are modelled as exact rationals.  JavaScript NaN is modelled
explicitly: a stored number is `Option ℚ`, with `none` standing for NaN, and
the arithmetic operations propagate `none` exactly as IEEE `+ - * /` propagate
NaN.  A typed-array read out of bounds yields `undefined` in JavaScript, and
`isNaN(undefined)` is `true`, so the bounds-guarded read `EBMState.readT`
returns `none` out of bounds.  Float rounding and overflow are not modelled
(the embedding is exact), which is the usual reading of the spec "exactly".
-/

attribute [local semireducible] Rat.add Rat.sub Rat.mul Rat.inv Rat.ofScientific

set_option maxRecDepth 2000

/-- A JavaScript number as stored in the engine arrays: a finite rational,
or NaN (`none`). -/
abbrev JSNum := Option ℚ

/-- NaN-propagating addition. -/
def jadd : JSNum → JSNum → JSNum
  | some a, some b => some (a + b)
  | _, _ => none

/-- NaN-propagating subtraction. -/
def jsub : JSNum → JSNum → JSNum
  | some a, some b => some (a - b)
  | _, _ => none

/-- NaN-propagating multiplication. -/
def jmul : JSNum → JSNum → JSNum
  | some a, some b => some (a * b)
  | _, _ => none

/-- NaN-propagating negation. -/
def jneg : JSNum → JSNum
  | some a => some (-a)
  | none => none

/-- NaN-propagating division by a plain rational.  Every division in the
engine has a plain-number denominator (`dx`, `heatCapacity`), nonzero at each
use site reached with a positive band count. -/
def jdivq : JSNum → ℚ → JSNum
  | some a, b => some (a / b)
  | none, _ => none

/-- The JavaScript comparison `v < t`: `false` whenever `v` is NaN. -/
def jltb : JSNum → ℚ → Bool
  | some a, t => decide (a < t)
  | none, _ => false

/-- Sum of the first `n` entries of a JSNum-valued array; NaN-propagating. -/
def jsum (f : ℕ → JSNum) : ℕ → JSNum
  | 0 => some 0
  | n + 1 => jadd (jsum f n) (f n)

/-- The parameter value object (`EBMParams` in ebm.ts). -/
structure EBMParams where
  S0 : ℚ
  A : ℚ
  B : ℚ
  D : ℚ
  iceAlbedo : ℚ
  oceanAlbedo : ℚ
  iceThreshold : ℚ

/-- Constant `DEFAULT_PARAMS` of ebm.ts. -/
def DEFAULT_PARAMS : EBMParams :=
  { S0 := 1360, A := 210, B := 2, D := 0.6,
    iceAlbedo := 0.62, oceanAlbedo := 0.3, iceThreshold := -10 }

/-- The mutable state of an `EBM` object.  Arrays are total functions on ℕ;
the engine only ever writes indices `< size` (real typed arrays have exactly
`size` entries), and the one read that can go out of bounds (`T[45]` in the
NaN guard) goes through the bounds-guarded `readT`.  The `lat` array is
written at construction and never read by engine code; it is modelled by the
standalone `latGrid` below so that the state stays computable. -/
structure EBMState where
  size : ℕ
  params : EBMParams
  x : ℕ → ℚ
  T : ℕ → JSNum
  albedo : ℕ → ℚ
  insol : ℕ → ℚ
  ASR : ℕ → ℚ
  OLR : ℕ → JSNum
  transport : ℕ → JSNum
  fluxBuffer : ℕ → JSNum
  time : ℚ

/-- Reading `this.T[i]`: out of bounds a typed array yields `undefined`,
which behaves as NaN under `isNaN` and arithmetic. -/
def EBMState.readT (s : EBMState) (i : ℕ) : JSNum :=
  if i < s.size then s.T i else none

/-- Band center `x[i] = -1 + 2 * ((i + 0.5) / size)` (body of `initGrid`). -/
def xGrid (size i : ℕ) : ℚ := -1 + 2 * (((i : ℚ) + 0.5) / (size : ℚ))

/-- Band latitude `lat[i] = Math.asin(x[i]) * (180 / Math.PI)` (body of `initGrid`). -/
noncomputable def latGrid (size i : ℕ) : ℝ :=
  Real.arcsin ((xGrid size i : ℚ) : ℝ) * (180 / Real.pi)

/-- Method `initGrid`: populate `x` at the band centers (the derived `lat` array is
modelled by `latGrid`). -/
def initGrid (s : EBMState) : EBMState :=
  { s with x := fun i => if i < s.size then xGrid s.size i else s.x i }

/-- Method `computeAlbedo`: `albedo[i] = T[i] < iceThreshold ? iceAlbedo : oceanAlbedo`. -/
def computeAlbedo (s : EBMState) : EBMState :=
  { s with albedo := fun i =>
      if i < s.size then
        if jltb (s.T i) s.params.iceThreshold then s.params.iceAlbedo
        else s.params.oceanAlbedo
      else s.albedo i }

/-- Method `computeInsolation`: `insol[i] = (S0/4) * (1 + s2 * P2(x[i]))` with
`s2 = -0.482`, `P2(x) = 0.5*(3x² - 1)`. -/
def computeInsolation (s : EBMState) : EBMState :=
  { s with insol := fun i =>
      if i < s.size then
        (s.params.S0 / 4) * (1 + (-0.482) * (0.5 * (3 * s.x i * s.x i - 1)))
      else s.insol i }

/-- The interface-flux array written by `computeTransport`:
interior `flux[i] = -D * (1 - x_interface²) * ((T[i] - T[i-1]) / dx)` for
`1 ≤ i < size`, then `flux[0] = 0` and `flux[size] = 0`. -/
def fluxFn (s : EBMState) : ℕ → JSNum := fun i =>
  let dx : ℚ := 2 / (s.size : ℚ)
  if 1 ≤ i ∧ i < s.size then
    jmul (some (-s.params.D * (1 - ((-1) + (i : ℚ) * dx) * ((-1) + (i : ℚ) * dx))))
      (jdivq (jsub (s.T i) (s.T (i - 1))) dx)
  else if i = 0 ∨ i = s.size then some 0
  else s.fluxBuffer i

/-- Method `computeTransport`: write the interface fluxes into the scratch buffer,
then `transport[i] = -(flux[i+1] - flux[i]) / dx` for every band. -/
def computeTransport (s : EBMState) : EBMState :=
  let dx : ℚ := 2 / (s.size : ℚ)
  let flux := fluxFn s
  { s with
    fluxBuffer := flux,
    transport := fun i =>
      if i < s.size then jdivq (jneg (jsub (flux (i + 1)) (flux i))) dx
      else s.transport i }

/-- Method `updateDiagnostics`: albedo, then `ASR[i] = insol[i] * (1 - albedo[i])`
and `OLR[i] = A + B * T[i]`, then transport.  `insol` is not recomputed. -/
def updateDiagnostics (s : EBMState) : EBMState :=
  let s1 := computeAlbedo s
  let s2 := { s1 with
    ASR := fun i => if i < s1.size then s1.insol i * (1 - s1.albedo i) else s1.ASR i,
    OLR := fun i =>
      if i < s1.size then jadd (some s1.params.A) (jmul (some s1.params.B) (s1.T i))
      else s1.OLR i }
  computeTransport s2

/-- Method `initState`: warm-earth initial profile `T[i] = 15 + 20*(1 - 2*x[i]²)`,
followed by one diagnostic refresh. -/
def initState (s : EBMState) : EBMState :=
  updateDiagnostics
    { s with T := fun i =>
        if i < s.size then some (15 + 20 * (1 - 2 * s.x i * s.x i)) else s.T i }

/-- The constructor body for a nonnegative size: allocate zero-filled arrays
(`new Float32Array` zero-initializes), copy the parameter object, then
`initGrid` and `initState`.  There is no validation of `size`. -/
def mkEBM (size : ℕ) (params : EBMParams) : EBMState :=
  initState (initGrid
    { size := size, params := params,
      x := fun _ => 0, T := fun _ => some 0, albedo := fun _ => 0,
      insol := fun _ => 0, ASR := fun _ => 0, OLR := fun _ => some 0,
      transport := fun _ => some 0, fluxBuffer := fun _ => some 0, time := 0 })

/-- Construction `new EBM(size, params)` for an integer size: `new Float32Array(size)`
throws a RangeError for a negative length (modelled as `none`); otherwise the
constructor body runs unconditionally — it contains no size validation. -/
def constructEBM (size : ℤ) (params : EBMParams) : Option EBMState :=
  if size < 0 then none else some (mkEBM size.toNat params)

/-- Local constant `heatCapacity = 10.0` of `step`. -/
def heatCapacity : ℚ := 10.0

/-- One forward-Euler update:
`T[i] += ((ASR[i] - OLR[i] + transport[i]) / heatCapacity) * dt_sub`. -/
def eulerUpdate (s : EBMState) (dtSub : ℚ) : EBMState :=
  { s with T := fun i =>
      if i < s.size then
        jadd (s.T i) (jmul
          (jdivq (jadd (jsub (some (s.ASR i)) (s.OLR i)) (s.transport i)) heatCapacity)
          (some dtSub))
      else s.T i }

/-- The NaN guard test `isNaN(this.T[45])`: true when `T[45]` is NaN or when
index 45 is out of bounds (`isNaN(undefined)` is `true`). -/
def sentinelNaN (s : EBMState) : Bool := (s.readT 45).isNone

/-- Step bound `safeDt = ((dx*dx) / (2*D + 0.001)) * 0.8` with `dx = 2/size`
(`stabilityLimit` times the 20% safety margin). -/
def EBMState.safeDt (s : EBMState) : ℚ :=
  let dx : ℚ := 2 / (s.size : ℚ)
  ((dx * dx) / (2 * s.params.D + 0.001)) * 0.8

/-- Result of the sub-stepping while-loop of `step`: the final state, the
final `timeRemaining`, the final `stepsTaken`, whether the loop was exited by
the NaN guard `return` (which also skips `this.time += dt`), and the list of
`dt_sub` values actually integrated. -/
structure LoopResult where
  state : EBMState
  remaining : ℚ
  stepsTaken : ℕ
  aborted : Bool
  subs : List ℚ

/-- The body of the while-loop of `step` (`while (timeRemaining > 0.000001)`).
`stepsTaken` is incremented every iteration and the loop breaks once it
exceeds 10000, so at most 10001 iterations run; the structural `fuel`
argument mirrors this bound (`stepRun` passes 10001, making the fuel-0 case
unreachable). -/
def stepLoop (safeDt : ℚ) : ℕ → ℚ → ℕ → EBMState → LoopResult
  | 0, remaining, stepsTaken, s => ⟨s, remaining, stepsTaken, false, []⟩
  | fuel + 1, remaining, stepsTaken, s =>
    if remaining > 0.000001 then
      let dtSub := min remaining safeDt
      let s1 := updateDiagnostics s
      if stepsTaken % 100 = 0 ∧ sentinelNaN s1 = true then
        ⟨s1, remaining, stepsTaken, true, []⟩
      else
        let s2 := eulerUpdate s1 dtSub
        let stepsTaken1 := stepsTaken + 1
        if stepsTaken1 > 10000 then
          ⟨s2, remaining - dtSub, stepsTaken1, false, [dtSub]⟩
        else
          let r := stepLoop safeDt fuel (remaining - dtSub) stepsTaken1 s2
          ⟨r.state, r.remaining, r.stepsTaken, r.aborted, dtSub :: r.subs⟩
    else ⟨s, remaining, stepsTaken, false, []⟩

/-- The whole sub-stepping loop of `step(dt)`, from its initial loop state. -/
def stepRun (s : EBMState) (dt : ℚ) : LoopResult :=
  stepLoop s.safeDt 10001 dt 0 s

/-- Method `step(dt)`: run the sub-stepping loop; the NaN guard `return` exits
before `this.time += dt`, while the sub-step-ceiling `break` and normal exit
fall through to it. -/
def step (s : EBMState) (dt : ℚ) : EBMState :=
  let r := stepRun s dt
  if r.aborted then r.state else { r.state with time := r.state.time + dt }

/-- A 46-band engine state whose band-44 temperature has become NaN.  (It
stands for a state degraded by an earlier numeric blow-up; the exact-rational
embedding cannot overflow, so the NaN is injected directly.) -/
def poisonedEBM : EBMState :=
  { mkEBM 46 DEFAULT_PARAMS with
    T := fun i => if i = 44 then none else (mkEBM 46 DEFAULT_PARAMS).T i }

/-- The rational value taken by the interface-flux array when the temperature
field is finite (`getD 0` reads the finite value); used to state and prove
the conservation property. -/
def gflux (s : EBMState) (i : ℕ) : ℚ :=
  if 1 ≤ i ∧ i < s.size then
    (-s.params.D *
      (1 - ((-1) + (i : ℚ) * (2 / (s.size : ℚ))) * ((-1) + (i : ℚ) * (2 / (s.size : ℚ))))) *
      (((s.T i).getD 0 - (s.T (i - 1)).getD 0) / (2 / (s.size : ℚ)))
  else 0

/-! ### Frame lemmas -/

theorem updateDiagnostics_T (s : EBMState) : (updateDiagnostics s).T = s.T := rfl

theorem updateDiagnostics_insol (s : EBMState) : (updateDiagnostics s).insol = s.insol := rfl

theorem updateDiagnostics_time (s : EBMState) : (updateDiagnostics s).time = s.time := rfl

theorem updateDiagnostics_size (s : EBMState) : (updateDiagnostics s).size = s.size := rfl

theorem eulerUpdate_insol (s : EBMState) (d : ℚ) : (eulerUpdate s d).insol = s.insol := rfl

theorem eulerUpdate_time (s : EBMState) (d : ℚ) : (eulerUpdate s d).time = s.time := rfl

theorem stepLoop_state_insol (sd : ℚ) (fuel : ℕ) :
    ∀ (rem : ℚ) (st : ℕ) (s : EBMState),
      (stepLoop sd fuel rem st s).state.insol = s.insol := by
  induction fuel with
  | zero => intro rem st s; rfl
  | succ fuel ih =>
    intro rem st s
    simp only [stepLoop]
    split
    · split
      · rfl
      · split
        · rfl
        · exact ih _ _ _
    · rfl

theorem stepLoop_state_time (sd : ℚ) (fuel : ℕ) :
    ∀ (rem : ℚ) (st : ℕ) (s : EBMState),
      (stepLoop sd fuel rem st s).state.time = s.time := by
  induction fuel with
  | zero => intro rem st s; rfl
  | succ fuel ih =>
    intro rem st s
    simp only [stepLoop]
    split
    · split
      · rfl
      · split
        · rfl
        · exact ih _ _ _
    · rfl

/-! ### Claim theorems -/

/-- C3: the spec mandates that a non-positive band count be rejected by
construction-time validation, but the constructor contains no validation at
all: `new EBM(0, params)` runs to completion and produces an Engine object
(with empty fields).  Only a negative count fails, and only incidentally,
because `new Float32Array(size)` throws a RangeError. -/
theorem C3_no_construction_validation :
    constructEBM 0 DEFAULT_PARAMS = some (mkEBM 0 DEFAULT_PARAMS) ∧
    constructEBM (-1) DEFAULT_PARAMS = none := by
  constructor <;> rfl

/-- C9: a diagnostic refresh — whether invoked directly or from inside an
advance call — never modifies the `insol` field; `insol` changes only when
`computeInsolation` is explicitly invoked. -/
theorem C9_insol_not_refreshed (s : EBMState) (dt : ℚ) :
    (updateDiagnostics s).insol = s.insol ∧ (step s dt).insol = s.insol := by
  refine ⟨rfl, ?_⟩
  have h := stepLoop_state_insol s.safeDt 10001 dt 0 s
  simp only [step]
  split <;> simpa [stepRun] using h

theorem stepRun_eq (s : EBMState) (dt : ℚ) :
    stepRun s dt = stepLoop s.safeDt (10000 + 1) dt 0 s := rfl

theorem stepLoop_succ (sd : ℚ) (fuel : ℕ) (rem : ℚ) (st : ℕ) (s : EBMState) :
    stepLoop sd (fuel + 1) rem st s =
      if rem > 0.000001 then
        if st % 100 = 0 ∧ sentinelNaN (updateDiagnostics s) = true then
          ⟨updateDiagnostics s, rem, st, true, []⟩
        else
          if st + 1 > 10000 then
            ⟨eulerUpdate (updateDiagnostics s) (min rem sd), rem - min rem sd,
              st + 1, false, [min rem sd]⟩
          else
            ⟨(stepLoop sd fuel (rem - min rem sd) (st + 1)
                (eulerUpdate (updateDiagnostics s) (min rem sd))).state,
             (stepLoop sd fuel (rem - min rem sd) (st + 1)
                (eulerUpdate (updateDiagnostics s) (min rem sd))).remaining,
             (stepLoop sd fuel (rem - min rem sd) (st + 1)
                (eulerUpdate (updateDiagnostics s) (min rem sd))).stepsTaken,
             (stepLoop sd fuel (rem - min rem sd) (st + 1)
                (eulerUpdate (updateDiagnostics s) (min rem sd))).aborted,
             min rem sd ::
               (stepLoop sd fuel (rem - min rem sd) (st + 1)
                 (eulerUpdate (updateDiagnostics s) (min rem sd))).subs⟩
      else ⟨s, rem, st, false, []⟩ := by
  rw [stepLoop]

/-- C1 (corrected): `time` advances by the full requested `dt` on every call
that is not aborted by the NaN guard — including calls truncated by the
sub-step ceiling, whose `break` falls through to `this.time += dt` — but the
NaN guard exits `step` with `return`, which skips `this.time += dt`, so an
advance call aborted by the NaN guard leaves `time` unchanged. -/
theorem C1_time_advances_unless_nan_abort (s : EBMState) (dt : ℚ) :
    (step s dt).time =
      if (stepRun s dt).aborted = true then s.time else s.time + dt := by
  have h : (stepRun s dt).state.time = s.time := stepLoop_state_time s.safeDt 10001 dt 0 s
  by_cases hab : (stepRun s dt).aborted = true
  · simp only [step, hab, if_true]
    exact h
  · simp only [step, hab, if_false]
    simp [h]

/-- C1 counterexample: an Engine with 40 bands makes the NaN guard read
`T[45]` out of bounds (`isNaN(undefined)` is `true`), so `step(1)` aborts via
`return` and `time` does not advance by the requested `dt = 1`. -/
theorem C1_cex_nan_abort_keeps_time :
    (step (mkEBM 40 DEFAULT_PARAMS) 1).time ≠ (mkEBM 40 DEFAULT_PARAMS).time + 1 := by
  decide

/-- C10 (corrected): whenever the requested `dt` exceeds the loop-entry
threshold `0.000001`, an advance on a grid with at most 45 bands aborts in
its very first sub-step iteration: the NaN guard reads the out-of-bounds
sentinel index 45, no Euler update is applied, and neither `T` nor `time`
changes. -/
theorem C10_small_grid_first_substep_abort (s : EBMState) (dt : ℚ)
    (hsz : s.size ≤ 45) (hdt : dt > 0.000001) :
    (stepRun s dt).aborted = true ∧ (stepRun s dt).stepsTaken = 0 ∧
    (step s dt).T = s.T ∧ (step s dt).time = s.time := by
  have hns : ¬ (45 < (updateDiagnostics s).size) := by
    rw [updateDiagnostics_size]; omega
  have hsent : sentinelNaN (updateDiagnostics s) = true := by
    unfold sentinelNaN EBMState.readT
    rw [if_neg hns]
    rfl
  have hrun : stepRun s dt = ⟨updateDiagnostics s, dt, 0, true, []⟩ := by
    rw [stepRun_eq, stepLoop_succ, if_pos hdt, if_pos ⟨by norm_num, hsent⟩]
  refine ⟨by rw [hrun], by rw [hrun], ?_, ?_⟩
  · simp only [step, stepRun] at *
    rw [hrun]
    simp [updateDiagnostics_T]
  · simp only [step, stepRun] at *
    rw [hrun]
    simp [updateDiagnostics_time]

/-- Witness for the amended C10 theorem at a concrete 40-band engine and
`dt = 1`. -/
theorem C10_witness :
    ((mkEBM 40 DEFAULT_PARAMS).size ≤ 45 ∧ (1 : ℚ) > 0.000001) ∧
    ((stepRun (mkEBM 40 DEFAULT_PARAMS) 1).aborted = true ∧
     (stepRun (mkEBM 40 DEFAULT_PARAMS) 1).stepsTaken = 0 ∧
     (step (mkEBM 40 DEFAULT_PARAMS) 1).T = (mkEBM 40 DEFAULT_PARAMS).T ∧
     (step (mkEBM 40 DEFAULT_PARAMS) 1).time = (mkEBM 40 DEFAULT_PARAMS).time) :=
  ⟨⟨by decide, by decide⟩,
   C10_small_grid_first_substep_abort (mkEBM 40 DEFAULT_PARAMS) 1 (by decide) (by decide)⟩

theorem stepLoop_abort (sd : ℚ) (fuel : ℕ) :
    ∀ (rem : ℚ) (st : ℕ) (s : EBMState),
      (stepLoop sd fuel rem st s).aborted = true →
      (stepLoop sd fuel rem st s).stepsTaken % 100 = 0 ∧
      sentinelNaN (stepLoop sd fuel rem st s).state = true ∧
      ∃ s9, (stepLoop sd fuel rem st s).state = updateDiagnostics s9 := by
  induction fuel with
  | zero => intro rem st s h; simp [stepLoop] at h
  | succ fuel ih =>
    intro rem st s h
    rw [stepLoop_succ] at h ⊢
    by_cases h1 : rem > 0.000001
    · rw [if_pos h1] at h ⊢
      by_cases h2 : st % 100 = 0 ∧ sentinelNaN (updateDiagnostics s) = true
      · rw [if_pos h2] at h ⊢
        exact ⟨h2.1, h2.2, s, rfl⟩
      · rw [if_neg h2] at h ⊢
        by_cases h3 : st + 1 > 10000
        · rw [if_pos h3] at h
          exact absurd h (by simp)
        · rw [if_neg h3] at h ⊢
          exact ih _ _ _ h
    · rw [if_neg h1] at h
      exact absurd h (by simp)

/-- C2 (corrected): the NaN guard samples the sentinel temperature only on
sub-steps whose index is a multiple of 100 (`stepsTaken % 100 === 0`),
starting with the first.  When a sampled value is NaN the call aborts before
the band update of that sub-step: the returned state is a diagnostics refresh of
the loop state reached so far (its sentinel read is NaN), the remaining
sub-steps are skipped, `time` is left unchanged, and nothing is thrown (the
modelled `step` is a total function).  Between samples, up to 99 further
sub-step updates can run after the sentinel first becomes NaN. -/
theorem C2_nan_guard_sampled_every_100 (s : EBMState) (dt : ℚ)
    (hab : (stepRun s dt).aborted = true) :
    (stepRun s dt).stepsTaken % 100 = 0 ∧
    sentinelNaN (stepRun s dt).state = true ∧
    step s dt = (stepRun s dt).state ∧
    (step s dt).time = s.time ∧
    ∃ s9, (stepRun s dt).state = updateDiagnostics s9 := by
  have h := stepLoop_abort s.safeDt 10001 dt 0 s hab
  have hstep : step s dt = (stepRun s dt).state := by
    simp only [step, hab, if_true]
  refine ⟨h.1, h.2.1, hstep, ?_, h.2.2⟩
  rw [hstep]
  exact stepLoop_state_time s.safeDt 10001 dt 0 s

/-- Witness for the amended C2 theorem: a concrete aborting advance call
(40-band engine, whose sentinel read is out of bounds, hence NaN). -/
theorem C2_witness :
    (stepRun (mkEBM 40 DEFAULT_PARAMS) 1).aborted = true ∧
    ((stepRun (mkEBM 40 DEFAULT_PARAMS) 1).stepsTaken % 100 = 0 ∧
     sentinelNaN (stepRun (mkEBM 40 DEFAULT_PARAMS) 1).state = true ∧
     step (mkEBM 40 DEFAULT_PARAMS) 1 = (stepRun (mkEBM 40 DEFAULT_PARAMS) 1).state ∧
     (step (mkEBM 40 DEFAULT_PARAMS) 1).time = (mkEBM 40 DEFAULT_PARAMS).time ∧
     ∃ s9, (stepRun (mkEBM 40 DEFAULT_PARAMS) 1).state = updateDiagnostics s9) :=
  ⟨by decide, C2_nan_guard_sampled_every_100 (mkEBM 40 DEFAULT_PARAMS) 1 (by decide)⟩

/-- C2 counterexample: during `step(2*safeDt)` on `poisonedEBM` the sentinel
temperature `T[45]` is a number at the start of the call and becomes NaN in
the first sub-step (diffusive transport propagates the NaN from band 44), yet
the call is not aborted: because `1 % 100 ≠ 0` the guard never looks again,
a second full band update is performed after the sentinel became NaN, and the
loop runs to completion — refuting "aborts immediately before performing any
further band update". -/
theorem C2_cex_updates_continue_after_nan :
    (poisonedEBM.readT 45).isSome = true ∧
    (eulerUpdate (updateDiagnostics poisonedEBM)
        (min (1600/635329) poisonedEBM.safeDt)).readT 45 = none ∧
    (stepRun poisonedEBM (1600/635329)).stepsTaken = 2 ∧
    (stepRun poisonedEBM (1600/635329)).aborted = false := by
  exact ⟨by decide, by decide, by decide, by decide⟩

/-- C10 counterexample: the claim quantifies over every positive `dt`, but
for `0 < dt ≤ 0.000001` the while-loop body never runs, so no guard fires
and `this.time += dt` still executes: the call is not a no-op on `time`. -/
theorem C10_cex_tiny_dt_advances_time :
    (step (mkEBM 40 DEFAULT_PARAMS) 0.000001).time ≠ (mkEBM 40 DEFAULT_PARAMS).time := by
  decide

/-- C7 (confirmed): on a diagnostic refresh, for a band whose temperature is
the number `t`: the albedo is the discontinuous step
`iceThreshold > t ? iceAlbedo : oceanAlbedo` (in particular, at
`t = iceThreshold` it is `oceanAlbedo`), `ASR[i] = insol[i] * (1 - albedo[i])`
with the freshly computed albedo, and `OLR[i] = A + B * t`. -/
theorem C7_surface_response (s : EBMState) (i : ℕ) (t : ℚ)
    (hi : i < s.size) (ht : s.T i = some t) :
    ((updateDiagnostics s).albedo i =
      if s.params.iceThreshold > t then s.params.iceAlbedo else s.params.oceanAlbedo) ∧
    (t = s.params.iceThreshold →
      (updateDiagnostics s).albedo i = s.params.oceanAlbedo) ∧
    (updateDiagnostics s).ASR i = s.insol i * (1 - (updateDiagnostics s).albedo i) ∧
    (updateDiagnostics s).OLR i = some (s.params.A + s.params.B * t) := by
  have halb : (updateDiagnostics s).albedo i =
      if t < s.params.iceThreshold then s.params.iceAlbedo else s.params.oceanAlbedo := by
    show (computeAlbedo s).albedo i = _
    simp [computeAlbedo, hi, ht, jltb]
  refine ⟨by rw [halb], ?_, ?_, ?_⟩
  · intro he
    rw [halb, he, if_neg (lt_irrefl _)]
  · show (if i < s.size then s.insol i * (1 - (computeAlbedo s).albedo i) else s.ASR i) = _
    rw [if_pos hi]
    rfl
  · show (if i < s.size then
        jadd (some s.params.A) (jmul (some s.params.B) (s.T i)) else s.OLR i) = _
    rw [if_pos hi, ht]
    simp [jadd, jmul]

/-- Witness for C7 at band 0 of a concrete 3-band engine,
`T[0] = 155/9 ≈ 17.2`. -/
theorem C7_witness :
    (0 < (mkEBM 3 DEFAULT_PARAMS).size ∧ (mkEBM 3 DEFAULT_PARAMS).T 0 = some (155/9)) ∧
    (((updateDiagnostics (mkEBM 3 DEFAULT_PARAMS)).albedo 0 =
      if (mkEBM 3 DEFAULT_PARAMS).params.iceThreshold > 155/9 then
        (mkEBM 3 DEFAULT_PARAMS).params.iceAlbedo
      else (mkEBM 3 DEFAULT_PARAMS).params.oceanAlbedo) ∧
    ((155/9 : ℚ) = (mkEBM 3 DEFAULT_PARAMS).params.iceThreshold →
      (updateDiagnostics (mkEBM 3 DEFAULT_PARAMS)).albedo 0 =
        (mkEBM 3 DEFAULT_PARAMS).params.oceanAlbedo) ∧
    (updateDiagnostics (mkEBM 3 DEFAULT_PARAMS)).ASR 0 =
      (mkEBM 3 DEFAULT_PARAMS).insol 0 *
        (1 - (updateDiagnostics (mkEBM 3 DEFAULT_PARAMS)).albedo 0) ∧
    (updateDiagnostics (mkEBM 3 DEFAULT_PARAMS)).OLR 0 =
      some ((mkEBM 3 DEFAULT_PARAMS).params.A +
        (mkEBM 3 DEFAULT_PARAMS).params.B * (155/9))) :=
  ⟨⟨by decide, by decide⟩,
   C7_surface_response (mkEBM 3 DEFAULT_PARAMS) 0 (155/9) (by decide) (by decide)⟩

/-- C6 (confirmed): `computeTransport` realises the flux-form discretization:
for an interior interface `1 ≤ i < N` with finite neighbouring temperatures
`a = T[i]`, `b = T[i-1]`, the stored flux is
`-D * (1 - x_interface²) * (T[i] - T[i-1]) / dx` with `x_interface = -1 + i*dx`
and `dx = 2/N`; and the convergence of every band is
`transport[i] = -(flux[i+1] - flux[i]) / dx`. -/
theorem C6_transport_discretization (s : EBMState) (i : ℕ) (a b : ℚ)
    (h1 : 1 ≤ i) (h2 : i < s.size) (ha : s.T i = some a) (hb : s.T (i - 1) = some b) :
    (computeTransport s).fluxBuffer i =
      some (-s.params.D * (1 - ((-1) + (i : ℚ) * (2 / (s.size : ℚ)))^2) *
        ((a - b) / (2 / (s.size : ℚ)))) ∧
    (∀ j, j < s.size →
      (computeTransport s).transport j =
        jdivq (jneg (jsub ((computeTransport s).fluxBuffer (j + 1))
          ((computeTransport s).fluxBuffer j))) (2 / (s.size : ℚ))) := by
  constructor
  · show fluxFn s i = _
    unfold fluxFn
    rw [if_pos ⟨h1, h2⟩, ha, hb]
    simp only [jsub, jdivq, jmul, Option.some.injEq]
    ring
  · intro j hj
    show (if j < s.size then
        jdivq (jneg (jsub (fluxFn s (j + 1)) (fluxFn s j))) (2 / (s.size : ℚ))
      else s.transport j) = _
    rw [if_pos hj]
    rfl

/-- Witness for C6 at interface 1 of a concrete 3-band engine
(`T[1] = 35`, `T[0] = 155/9`). -/
theorem C6_witness :
    (1 ≤ 1 ∧ 1 < (mkEBM 3 DEFAULT_PARAMS).size ∧
     (mkEBM 3 DEFAULT_PARAMS).T 1 = some 35 ∧
     (mkEBM 3 DEFAULT_PARAMS).T 0 = some (155/9)) ∧
    ((computeTransport (mkEBM 3 DEFAULT_PARAMS)).fluxBuffer 1 =
      some (-(mkEBM 3 DEFAULT_PARAMS).params.D *
        (1 - ((-1) + (1 : ℚ) * (2 / ((mkEBM 3 DEFAULT_PARAMS).size : ℚ)))^2) *
        ((35 - 155/9) / (2 / ((mkEBM 3 DEFAULT_PARAMS).size : ℚ)))) ∧
    (∀ j, j < (mkEBM 3 DEFAULT_PARAMS).size →
      (computeTransport (mkEBM 3 DEFAULT_PARAMS)).transport j =
        jdivq (jneg (jsub ((computeTransport (mkEBM 3 DEFAULT_PARAMS)).fluxBuffer (j + 1))
          ((computeTransport (mkEBM 3 DEFAULT_PARAMS)).fluxBuffer j)))
          (2 / ((mkEBM 3 DEFAULT_PARAMS).size : ℚ)))) :=
  ⟨⟨le_refl 1, by decide, by decide, by decide⟩,
   C6_transport_discretization (mkEBM 3 DEFAULT_PARAMS) 1 35 (155/9)
     (le_refl 1) (by decide) (by decide) (by decide)⟩

/-- C8 (confirmed): the Grid Builder produces
`x[i] = -1 + 2*(i+0.5)/N`, strictly increasing with `x[0] > -1` and
`x[N-1] < 1`, and `lat[i] = asin(x[i]) * 180/π` exactly. -/
theorem C8_grid (N : ℕ) (p : EBMParams) (hN : 0 < N) :
    (∀ i, i < N → (mkEBM N p).x i = -1 + 2 * (((i : ℚ) + 0.5) / (N : ℚ))) ∧
    (∀ i j, i < j → j < N → (mkEBM N p).x i < (mkEBM N p).x j) ∧
    (-1 : ℚ) < (mkEBM N p).x 0 ∧ (mkEBM N p).x (N - 1) < 1 ∧
    (∀ i, i < N →
      latGrid N i = Real.arcsin (((mkEBM N p).x i : ℚ) : ℝ) * (180 / Real.pi)) := by
  have hNQ : (0 : ℚ) < (N : ℚ) := by exact_mod_cast hN
  have hx : ∀ i, (mkEBM N p).x i = if i < N then xGrid N i else 0 := fun i => rfl
  have hxv : ∀ i, i < N → (mkEBM N p).x i = -1 + 2 * (((i : ℚ) + 0.5) / (N : ℚ)) := by
    intro i hi
    rw [hx, if_pos hi]
    rfl
  refine ⟨hxv, ?_, ?_, ?_, ?_⟩
  · intro i j hij hj
    rw [hxv i (lt_trans hij hj), hxv j hj]
    have hcast : ((i : ℚ) + 0.5) < ((j : ℚ) + 0.5) := by
      have : (i : ℚ) < (j : ℚ) := by exact_mod_cast hij
      linarith
    have := (div_lt_div_iff_of_pos_right hNQ).mpr hcast
    linarith
  · rw [hxv 0 hN]
    have h05 : (0 : ℚ) < ((0 : ℚ) + 0.5) / (N : ℚ) := by positivity
    linarith
  · rw [hxv (N - 1) (by omega)]
    have hc : (((N - 1 : ℕ) : ℚ)) = (N : ℚ) - 1 := by
      have h1N : 1 ≤ N := hN
      push_cast [h1N]
      ring
    rw [hc]
    have hlt : ((N : ℚ) - 1 + 0.5) / (N : ℚ) < 1 := by
      rw [div_lt_one hNQ]
      linarith
    linarith
  · intro i hi
    rw [hx, if_pos hi]
    rfl

/-- Witness for C8 at a concrete 3-band grid. -/
theorem C8_witness :
    0 < 3 ∧
    ((∀ i, i < 3 → (mkEBM 3 DEFAULT_PARAMS).x i = -1 + 2 * (((i : ℚ) + 0.5) / (3 : ℚ))) ∧
    (∀ i j, i < j → j < 3 → (mkEBM 3 DEFAULT_PARAMS).x i < (mkEBM 3 DEFAULT_PARAMS).x j) ∧
    (-1 : ℚ) < (mkEBM 3 DEFAULT_PARAMS).x 0 ∧ (mkEBM 3 DEFAULT_PARAMS).x (3 - 1) < 1 ∧
    (∀ i, i < 3 →
      latGrid 3 i = Real.arcsin (((mkEBM 3 DEFAULT_PARAMS).x i : ℚ) : ℝ) * (180 / Real.pi))) :=
  ⟨by decide, C8_grid 3 DEFAULT_PARAMS (by decide)⟩

theorem jsum_some (f : ℕ → JSNum) (g : ℕ → ℚ) :
    ∀ n, (∀ i, i < n → f i = some (g i)) →
      jsum f n = some (∑ i ∈ Finset.range n, g i) := by
  intro n
  induction n with
  | zero => intro _; simp [jsum]
  | succ n ih =>
    intro h
    rw [jsum, ih (fun i hi => h i (by omega)), h n (by omega), Finset.sum_range_succ]
    rfl

/-- C5 (confirmed): for any finite temperature field, after `computeTransport`
the boundary fluxes are exactly zero and the transport convergence sums to
exactly zero over all bands — the flux-form divergence with insulating
boundaries is purely redistributive. -/
theorem C5_transport_conservation (s : EBMState)
    (hfin : ∀ i, i < s.size → (s.T i).isSome = true) :
    (computeTransport s).fluxBuffer 0 = some 0 ∧
    (computeTransport s).fluxBuffer s.size = some 0 ∧
    jsum (computeTransport s).transport s.size = some 0 := by
  have hT : ∀ i, i < s.size → s.T i = some ((s.T i).getD 0) := by
    intro i hi
    rcases Option.isSome_iff_exists.mp (hfin i hi) with ⟨a, ha⟩
    rw [ha]
    rfl
  have hfluxg : ∀ i, i ≤ s.size → fluxFn s i = some (gflux s i) := by
    intro i hile
    simp only [fluxFn, gflux]
    by_cases hint : 1 ≤ i ∧ i < s.size
    · rw [if_pos hint, if_pos hint, hT i hint.2, hT (i - 1) (by omega)]
      rfl
    · rw [if_neg hint, if_neg hint]
      have h0N : i = 0 ∨ i = s.size := by omega
      rw [if_pos h0N]
  have htrans : ∀ i, i < s.size →
      (computeTransport s).transport i =
        some (-(gflux s (i + 1) - gflux s i) / (2 / (s.size : ℚ))) := by
    intro i hi
    show (if i < s.size then
        jdivq (jneg (jsub (fluxFn s (i + 1)) (fluxFn s i))) (2 / (s.size : ℚ))
      else s.transport i) = _
    rw [if_pos hi, hfluxg (i + 1) (by omega), hfluxg i (by omega)]
    rfl
  refine ⟨?_, ?_, ?_⟩
  · show fluxFn s 0 = some 0
    simp only [fluxFn]
    rw [if_neg (by omega)]
    simp
  · show fluxFn s s.size = some 0
    simp only [fluxFn]
    rw [if_neg (by omega)]
    simp
  · rw [jsum_some (computeTransport s).transport
      (fun i => -(gflux s (i + 1) - gflux s i) / (2 / (s.size : ℚ))) s.size htrans]
    have hg0 : gflux s 0 = 0 := by
      unfold gflux
      rw [if_neg (by omega)]
    have hgN : gflux s s.size = 0 := by
      unfold gflux
      rw [if_neg (by omega)]
    have hsum : (∑ i ∈ Finset.range s.size, -(gflux s (i + 1) - gflux s i) / (2 / (s.size : ℚ)))
        = -(gflux s s.size - gflux s 0) / (2 / (s.size : ℚ)) := by
      rw [← Finset.sum_div, Finset.sum_neg_distrib, Finset.sum_range_sub]
    rw [hsum, hg0, hgN]
    norm_num

/-- Witness for C5 at a concrete 3-band engine. -/
theorem C5_witness :
    (∀ i, i < (mkEBM 3 DEFAULT_PARAMS).size → ((mkEBM 3 DEFAULT_PARAMS).T i).isSome = true) ∧
    ((computeTransport (mkEBM 3 DEFAULT_PARAMS)).fluxBuffer 0 = some 0 ∧
     (computeTransport (mkEBM 3 DEFAULT_PARAMS)).fluxBuffer (mkEBM 3 DEFAULT_PARAMS).size =
       some 0 ∧
     jsum (computeTransport (mkEBM 3 DEFAULT_PARAMS)).transport
       (mkEBM 3 DEFAULT_PARAMS).size = some 0) :=
  ⟨by decide, C5_transport_conservation (mkEBM 3 DEFAULT_PARAMS) (by decide)⟩

theorem stepLoop_budget (sd : ℚ) (hsd : 0 < sd) (fuel : ℕ) :
    ∀ (rem : ℚ) (st : ℕ) (s : EBMState), 0 ≤ rem → 10001 ≤ fuel + st →
      (stepLoop sd fuel rem st s).subs.sum = rem - (stepLoop sd fuel rem st s).remaining ∧
      0 ≤ (stepLoop sd fuel rem st s).remaining ∧
      ((stepLoop sd fuel rem st s).aborted = false →
        (stepLoop sd fuel rem st s).stepsTaken ≤ 10000 →
        (stepLoop sd fuel rem st s).remaining ≤ 0.000001) ∧
      (∀ d, d ∈ (stepLoop sd fuel rem st s).subs → 0 < d ∧ d ≤ sd) := by
  induction fuel with
  | zero =>
    intro rem st s h0 hfs
    refine ⟨by simp [stepLoop], by simpa [stepLoop] using h0, ?_, by simp [stepLoop]⟩
    intro _ hst
    simp only [stepLoop] at hst
    exact absurd hst (by omega)
  | succ fuel ih =>
    intro rem st s h0 hfs
    rw [stepLoop_succ]
    by_cases h1 : rem > 0.000001
    · rw [if_pos h1]
      have hrpos : 0 < rem := lt_trans (by norm_num) h1
      by_cases h2 : st % 100 = 0 ∧ sentinelNaN (updateDiagnostics s) = true
      · rw [if_pos h2]
        dsimp only
        refine ⟨by simp, h0, ?_, by simp⟩
        intro hab
        simp at hab
      · rw [if_neg h2]
        have hdtpos : 0 < min rem sd := lt_min hrpos hsd
        have hdtle : min rem sd ≤ rem := min_le_left _ _
        by_cases h3 : st + 1 > 10000
        · rw [if_pos h3]
          dsimp only
          refine ⟨by simp, by linarith, ?_, ?_⟩
          · intro _ hle
            exact absurd hle (by omega)
          · intro d hd
            rcases List.mem_singleton.mp hd with h
            subst h
            exact ⟨hdtpos, min_le_right _ _⟩
        · rw [if_neg h3]
          dsimp only
          have hrec := ih (rem - min rem sd) (st + 1)
            (eulerUpdate (updateDiagnostics s) (min rem sd)) (by linarith) (by omega)
          refine ⟨?_, hrec.2.1, hrec.2.2.1, ?_⟩
          · rw [List.sum_cons, hrec.1]
            ring
          · intro d hd
            rcases List.mem_cons.mp hd with h | h
            · subst h
              exact ⟨hdtpos, min_le_right _ _⟩
            · exact hrec.2.2.2 d h
    · rw [if_neg h1]
      dsimp only
      refine ⟨by simp, h0, ?_, by simp⟩
      intro _ _
      exact le_of_not_lt h1

/-- C4 (corrected): every sub-step integrates `dt_sub = min(remaining,
safeDt)` with `0 < dt_sub ≤ safeDt`, but the loop stops as soon as the
remaining time drops to `0.000001` or below, so on a call truncated by
neither guard the sub-step sizes sum to `dt - r` for a residual
`0 ≤ r ≤ 0.000001` — and the residual can be nonzero, so the sum does not
always equal the requested `dt`. -/
theorem C4_substep_budget (s : EBMState) (dt : ℚ)
    (hsz : 0 < s.size) (hD : 0 ≤ s.params.D) (hdt : 0 < dt)
    (hab : (stepRun s dt).aborted = false)
    (hceil : (stepRun s dt).stepsTaken ≤ 10000) :
    (stepRun s dt).subs.sum = dt - (stepRun s dt).remaining ∧
    0 ≤ (stepRun s dt).remaining ∧ (stepRun s dt).remaining ≤ 0.000001 ∧
    (∀ d, d ∈ (stepRun s dt).subs → 0 < d ∧ d ≤ s.safeDt) := by
  have hsQ : (0 : ℚ) < (s.size : ℚ) := by exact_mod_cast hsz
  have hdx : (0 : ℚ) < 2 / (s.size : ℚ) := by positivity
  have hden : (0 : ℚ) < 2 * s.params.D + 0.001 := by
    have h1 : (0 : ℚ) < 0.001 := by norm_num
    linarith
  have hsd : 0 < s.safeDt := by
    show 0 < ((2 / (s.size : ℚ)) * (2 / (s.size : ℚ)) / (2 * s.params.D + 0.001)) * 0.8
    exact mul_pos (div_pos (mul_pos hdx hdx) hden) (by norm_num)
  have h := stepLoop_budget s.safeDt hsd 10001 dt 0 s (le_of_lt hdt) (by omega)
  exact ⟨h.1, h.2.1, h.2.2.1 hab hceil, h.2.2.2⟩

/-- Witness for the amended C4 theorem: a concrete 46-band engine advanced by
`dt = 0.001`, completing in one sub-step with zero residual. -/
theorem C4_witness :
    (0 < (mkEBM 46 DEFAULT_PARAMS).size ∧ 0 ≤ (mkEBM 46 DEFAULT_PARAMS).params.D ∧
     (0 : ℚ) < 0.001 ∧ (stepRun (mkEBM 46 DEFAULT_PARAMS) 0.001).aborted = false ∧
     (stepRun (mkEBM 46 DEFAULT_PARAMS) 0.001).stepsTaken ≤ 10000) ∧
    ((stepRun (mkEBM 46 DEFAULT_PARAMS) 0.001).subs.sum =
       0.001 - (stepRun (mkEBM 46 DEFAULT_PARAMS) 0.001).remaining ∧
     0 ≤ (stepRun (mkEBM 46 DEFAULT_PARAMS) 0.001).remaining ∧
     (stepRun (mkEBM 46 DEFAULT_PARAMS) 0.001).remaining ≤ 0.000001 ∧
     (∀ d, d ∈ (stepRun (mkEBM 46 DEFAULT_PARAMS) 0.001).subs →
       0 < d ∧ d ≤ (mkEBM 46 DEFAULT_PARAMS).safeDt)) :=
  ⟨⟨by decide, by decide, by decide, by decide, by decide⟩,
   C4_substep_budget (mkEBM 46 DEFAULT_PARAMS) 0.001
     (by decide) (by decide) (by decide) (by decide) (by decide)⟩

/-- C4 counterexample: with 46 bands and default parameters,
`safeDt = 800/635329`, and a request `dt = safeDt + 1/2000000` takes one full
sub-step of `safeDt` and then exits the loop because the remaining
`1/2000000 = 0.0000005` is below the `0.000001` threshold — neither the NaN
guard nor the sub-step ceiling fired, yet the sum of the `dt_sub` taken is
`safeDt ≠ dt`. -/
theorem C4_cex_residual_dropped :
    (stepRun (mkEBM 46 DEFAULT_PARAMS) (800/635329 + 1/2000000)).aborted = false ∧
    (stepRun (mkEBM 46 DEFAULT_PARAMS) (800/635329 + 1/2000000)).stepsTaken = 1 ∧
    (stepRun (mkEBM 46 DEFAULT_PARAMS) (800/635329 + 1/2000000)).subs.sum ≠
      800/635329 + 1/2000000 := by
  exact ⟨by decide, by decide, by decide⟩
